import Mathlib

/-!
# Verification of the toyou_proxy request-dispatch pipeline

Shallow embedding of the parts of the `toyou_proxy` reverse proxy that the
checked properties are about: host/route pattern matching, per-request
middleware-chain assembly, dynamic target resolution, WebSocket upgrade
detection, the weighted round-robin load balancer, the connection counters,
the health prober, the rate-limit client-IP resolution and window, and the
response-body replace rules.

Go `string` values are modelled as Lean `String`; the Go `strings` package
functions used by the source (`HasPrefix`, `HasSuffix`, `Contains`,
`ToLower`, `Index`) are modelled on the underlying character list.  Go map
iteration, where the source iterates a `map`, is modelled as iteration over
an association list in insertion order; none of the proved statements
depends on a particular iteration order.  Regular-expression matching
(`regexp.Compile` / `MatchString`) is kept abstract: definitions that reach
a regex tier take the matcher as a function parameter `rm : String → String
→ Bool`, where `rm pat s = true` models "`pat` compiles and matches `s`".
-/

namespace ToyouProxy

/-- Go `strings.HasPrefix s pre`. -/
def goHasPre (s pre : String) : Bool := decide (pre.data <+: s.data)

/-- Go `strings.HasSuffix s suf`. -/
def goHasSuf (s suf : String) : Bool := decide (suf.data <:+ s.data)

/-- Go `strings.Contains s sub`. -/
def goContains (s sub : String) : Bool := decide (sub.data <:+: s.data)

/-- Go `strings.ToLower` (ASCII; the headers the source inspects are ASCII). -/
def goToLower (s : String) : String := ⟨s.data.map Char.toLower⟩

/-- Go slicing `s[n:]`. -/
def goDrop (s : String) (n : Nat) : String := ⟨s.data.drop n⟩

/-- Go slicing `s[:n]`. -/
def goTake (s : String) (n : Nat) : String := ⟨s.data.take n⟩

/-- `host[:strings.Index(host, ":")]` when a colon occurs, `host` otherwise
(the port-stripping idiom of `ProxyHandler.determineTarget` and of the
`dynamic_route` middleware). -/
def stripPort (host : String) : String := ⟨host.data.takeWhile (· ≠ ':')⟩

/-! ## Host matching (`matcher.HostMatcher`, matcher/host_matcher.go)

`HostMatcher` holds `rules map[string]string` (pattern → target); here it is
an association list (`AddRule` on a map overwrites, so keys are unique;
exact lookup is `List.lookup`). -/

/-- The wildcard scan of `HostMatcher.Match`: for each pattern in turn, if it
starts with `"*."` let `domain` be the pattern minus `"*."`; the rule fires
when `strings.HasSuffix(host, domain)` and (`host == domain` or
`strings.HasSuffix(host, "."+domain)`). -/
def hostWildcardScan (host : String) : List (String × String) → Option String
  | [] => none
  | (pat, tgt) :: rest =>
    if goHasPre pat "*." then
      let domain := goDrop pat 2
      if goHasSuf host domain &&
          (host == domain || goHasSuf host ("." ++ domain)) then some tgt
      else hostWildcardScan host rest
    else hostWildcardScan host rest

/-- `HostMatcher.Match`: exact map lookup first, then the wildcard scan;
`("", false)` when nothing matches.  There is no regex tier in the source. -/
def hostMatcherMatch (rules : List (String × String)) (host : String) :
    String × Bool :=
  match rules.lookup host with
  | some tgt => (tgt, true)
  | none =>
    match hostWildcardScan host rules with
    | some tgt => (tgt, true)
    | none => ("", false)

/-- Wildcard-pattern test as the spec words it: the pattern has shape
`*.domain` and the host equals `domain` or ends in `.domain`. -/
def wildcardMatches (host pat : String) : Bool :=
  goHasPre pat "*." &&
    (host == goDrop pat 2 || goHasSuf host ("." ++ goDrop pat 2))

/-- Modelled from the spec (claim C1's reading of host resolution): exact
equality against the host stripped of its port, otherwise the first
`*.domain` rule matching, otherwise the first `^…$` rule whose regex
(abstracted as `rm`) matches.  Compared against `hostMatcherMatch`. -/
def hostMatchClaimC1 (rm : String → String → Bool)
    (rules : List (String × String)) (host : String) : String × Bool :=
  let h := stripPort host
  match rules.lookup h with
  | some tgt => (tgt, true)
  | none =>
    match rules.find? (fun pt => wildcardMatches h pt.1) with
    | some pt => (pt.2, true)
    | none =>
      match rules.find? (fun pt =>
          goHasPre pt.1 "^" && goHasSuf pt.1 "$" && rm pt.1 h) with
      | some pt => (pt.2, true)
      | none => ("", false)

/-- Go regexp matching restricted to anchored patterns `^lit$` whose body
`lit` contains no metacharacters: such a regex matches exactly the string
`lit`.  Faithful to `regexp.MatchString` on that pattern class; used only to
instantiate the abstract matcher at concrete metacharacter-free patterns. -/
def anchoredLiteralRegexMatch (pat s : String) : Bool :=
  goHasPre pat "^" && goHasSuf pat "$" && s == goTake (goDrop pat 1) (pat.data.length - 2)

/-- Amended C1 host resolution: exact equality against the host exactly as
given (the caller strips the port), otherwise the first `*.domain` rule with
`host = domain` or `host` ending in `.domain`; there is no regex tier. -/
def hostMatchAmendedC1 (rules : List (String × String)) (host : String) :
    String × Bool :=
  match rules.lookup host with
  | some tgt => (tgt, true)
  | none =>
    match rules.find? (fun pt => wildcardMatches host pt.1) with
    | some pt => (pt.2, true)
    | none => ("", false)

/-! ## Per-request middleware-chain assembly
(`ProxyHandler.createDynamicMiddlewareChain`, proxy/handler.go)

The chain (`MiddlewareChain.Add` is plain append) is modelled as the list of
middleware names added, in order.  Creation outcomes are abstracted:
`svcCreate n = true` models `factory.CreateMiddleware(n, nil)` succeeding
(the registered middleware-service form), `cfgCreate n = true` models
`factory.CreateMiddleware(n, cfg)` succeeding for the enabled spec named
`n`.  A `HostRule`/`RouteRule` is represented by its `Middlewares` name
list, wrapped in `Option` for the `nil` rule pointer. -/

/-- Names of the enabled middleware specs (the `enabledMiddlewares` map). -/
def enabledNames (cfgMws : List (String × Bool)) : List String :=
  (cfgMws.filter (fun p => p.2)).map Prod.fst

/-- The route-level/host-level loop: each declared name is added when the
service form succeeds, or else when an enabled spec of that name exists and
its config form succeeds; otherwise it is skipped with a warning. -/
def scopedNames (svcCreate cfgCreate : String → Bool)
    (enabled : List String) : Option (List String) → List String
  | none => []
  | some declared =>
    declared.filter (fun n => svcCreate n || (enabled.contains n && cfgCreate n))

/-- `true` when the rule exists and declares the name (the
`alreadyAdded` scan of the global loops). -/
def declaresName : Option (List String) → String → Bool
  | none, _ => false
  | some declared, n => declared.contains n

/-- The global loop over `cfg.Middlewares`: every enabled spec whose name is
not declared on the matched route rule or host rule, and whose config-form
creation succeeds. -/
def globalCfgNames (cfgCreate : String → Bool) (cfgMws : List (String × Bool))
    (routeMws hostMws : Option (List String)) : List String :=
  (cfgMws.filter (fun p =>
      p.2 && !declaresName routeMws p.1 && !declaresName hostMws p.1 &&
        cfgCreate p.1)).map Prod.fst

/-- The global loop over the middleware-service registry: every service with
`IsGlobal = true` whose name is not declared on the matched route rule or
host rule, and whose service-form creation succeeds.  A registry entry is
`(Name, IsGlobal)`. -/
def globalRegistryNames (svcCreate : String → Bool)
    (registry : List (String × Bool))
    (routeMws hostMws : Option (List String)) : List String :=
  (registry.filter (fun p =>
      p.2 && !declaresName routeMws p.1 && !declaresName hostMws p.1 &&
        svcCreate p.1)).map Prod.fst

/-- `createDynamicMiddlewareChain` as the name list of the assembled chain:
route-level names, then host-level names, then globally-enabled specs, then
`IsGlobal` registry services. -/
def createDynamicChainNames (svcCreate cfgCreate : String → Bool)
    (cfgMws : List (String × Bool)) (registry : List (String × Bool))
    (routeMws hostMws : Option (List String)) : List String :=
  scopedNames svcCreate cfgCreate (enabledNames cfgMws) routeMws ++
  scopedNames svcCreate cfgCreate (enabledNames cfgMws) hostMws ++
  globalCfgNames cfgCreate cfgMws routeMws hostMws ++
  globalRegistryNames svcCreate registry routeMws hostMws

/-! ## Route matching inside a matched host rule
(`ProxyHandler.determineTarget`, proxy/handler.go) -/

/-- `config.Service` (config/config.go). -/
structure GoService where
  url : String
  proxyHost : String
  deriving DecidableEq, Repr

/-- `config.RouteRule` restricted to the fields `determineTarget` reads. -/
structure GoRouteRule where
  pattern : String
  target : String
  deriving DecidableEq, Repr

/-- One iteration of the route-rule loop of `determineTarget`: the rule
matches the path when (its pattern is `"/"` and the path is `"/"`), or its
pattern ends in `"/*"` and the path equals the pattern minus `"/*"` or
starts with it followed by `"/"`, or its pattern is `^…$` and the regex
(abstracted as `rm`) matches the path.  Note the only exact-equality test
the source performs is against the root pattern `"/"`. -/
def routeRuleFires (rm : String → String → Bool) (path : String)
    (rr : GoRouteRule) : Bool :=
  (rr.pattern == "/" && path == "/") ||
  (goHasSuf rr.pattern "/*" &&
    (let pre := goTake rr.pattern (rr.pattern.data.length - 2)
     goHasPre path pre && (path == pre || goHasPre path (pre ++ "/")))) ||
  (goHasPre rr.pattern "^" && goHasSuf rr.pattern "$" && rm rr.pattern path)

/-- The route-rule loop: first rule in declaration order that fires *and*
whose target is a configured service; a firing rule whose target is unknown
falls through to the next rule. -/
def routeRuleLoop (rm : String → String → Bool)
    (services : List (String × GoService)) (path : String) :
    List GoRouteRule → Option (GoService × GoRouteRule)
  | [] => none
  | rr :: rest =>
    if routeRuleFires rm path rr then
      match services.lookup rr.target with
      | some svc => some (svc, rr)
      | none => routeRuleLoop rm services path rest
    else routeRuleLoop rm services path rest

/-- Steps 2–3 of `determineTarget` once a host rule has matched: try the
host rule's route rules in order, otherwise fall back to the host rule's own
target (`none` models the final "no matching rule found" error when even the
fallback target is not a configured service). -/
def determineTargetInHost (rm : String → String → Bool)
    (services : List (String × GoService)) (hostTarget : String)
    (routeRules : List GoRouteRule) (path : String) :
    Option (GoService × Option GoRouteRule) :=
  match routeRuleLoop rm services path routeRules with
  | some (svc, rr) => some (svc, some rr)
  | none =>
    match services.lookup hostTarget with
    | some svc => some (svc, none)
    | none => none

/-- Route-rule match as claim C3 words it: exact path equality, or
`prefix/*` (path equals the prefix or starts with `prefix + "/"`), or
anchored regex. -/
def routeRuleFiresClaimC3 (rm : String → String → Bool) (path : String)
    (rr : GoRouteRule) : Bool :=
  (rr.pattern == path) ||
  (goHasSuf rr.pattern "/*" &&
    (let pre := goTake rr.pattern (rr.pattern.data.length - 2)
     path == pre || goHasPre path (pre ++ "/"))) ||
  (goHasPre rr.pattern "^" && goHasSuf rr.pattern "$" && rm rr.pattern path)

/-- Modelled from the spec (claim C3's reading): first route rule in
declaration order matching per `routeRuleFiresClaimC3`; when none matches,
the host rule's own target serves the request. -/
def determineTargetClaimC3 (rm : String → String → Bool)
    (services : List (String × GoService)) (hostTarget : String)
    (routeRules : List GoRouteRule) (path : String) :
    Option (GoService × Option GoRouteRule) :=
  match routeRules.find? (routeRuleFiresClaimC3 rm path) with
  | some rr =>
    match services.lookup rr.target with
    | some svc => some (svc, some rr)
    | none => none
  | none =>
    match services.lookup hostTarget with
    | some svc => some (svc, none)
    | none => none

/-- Amended C3 route-rule match: exact equality fires only for the root
pattern `"/"`; `prefix/*` and anchored regex as the claim states. -/
def routeRuleFiresAmendedC3 (rm : String → String → Bool) (path : String)
    (rr : GoRouteRule) : Bool :=
  (rr.pattern == "/" && path == "/") ||
  (goHasSuf rr.pattern "/*" &&
    (let pre := goTake rr.pattern (rr.pattern.data.length - 2)
     path == pre || goHasPre path (pre ++ "/"))) ||
  (goHasPre rr.pattern "^" && goHasSuf rr.pattern "$" && rm rr.pattern path)

/-- Amended C3 resolution: first rule in declaration order that fires and
whose target is a configured service (a firing rule with an unknown target
is skipped); fallback to the host rule's own target. -/
def determineTargetAmendedC3 (rm : String → String → Bool)
    (services : List (String × GoService)) (hostTarget : String)
    (routeRules : List GoRouteRule) (path : String) :
    Option (GoService × Option GoRouteRule) :=
  match routeRules.find? (fun rr =>
      routeRuleFiresAmendedC3 rm path rr && (services.lookup rr.target).isSome) with
  | some rr =>
    match services.lookup rr.target with
    | some svc => some (svc, some rr)
    | none => none
  | none =>
    match services.lookup hostTarget with
    | some svc => some (svc, none)
    | none => none

/-! ## Dynamic target swap (`ProxyHandler.ServeHTTP`, proxy/handler.go)

After the chain runs, `ServeHTTP` reads `ctx.Values["dynamic_target_service"]`,
type-asserts it to `string`, and swaps the target when the name is a
configured service. -/

/-- A value of the context's `map[string]interface{}` bag: a string, or a
value of some other dynamic type (for which the type assertion fails). -/
inductive GoVal
  | str (s : String)
  | other
  deriving DecidableEq, Repr

/-- The dynamic-target block of `ServeHTTP`: `dynVal` is
`ctx.Values["dynamic_target_service"]` (`none` when the key is absent).
Returns the service the proxy will be built for. -/
def resolveDynamicTarget (services : List (String × GoService))
    (orig : GoService) (dynVal : Option GoVal) : GoService :=
  match dynVal with
  | some (GoVal.str name) =>
    match services.lookup name with
    | some svc => svc
    | none => orig
  | _ => orig

/-! ## WebSocket upgrade detection (`isWebSocketUpgrade`, proxy/websocket.go) -/

/-- The four header values `isWebSocketUpgrade` reads (`Header.Get` returns
`""` for an absent header). -/
structure WsHeaders where
  connection : String
  upgrade : String
  secWebSocketVersion : String
  secWebSocketKey : String
  deriving DecidableEq, Repr

/-- `isWebSocketUpgrade`: lower-cased `Connection` must contain `"upgrade"`,
lower-cased `Upgrade` must equal `"websocket"`, `Sec-WebSocket-Version` must
be `"13"`, and `Sec-WebSocket-Key` must be non-empty — all four together. -/
def isWebSocketUpgrade (h : WsHeaders) : Bool :=
  goContains (goToLower h.connection) "upgrade" &&
  goToLower h.upgrade == "websocket" &&
  h.secWebSocketVersion == "13" &&
  h.secWebSocketKey != ""

/-- Modelled from the spec (claim C5's reading): any one of the three
criteria alone classifies the request as a WebSocket upgrade. -/
def isWsUpgradeClaimC5 (h : WsHeaders) : Bool :=
  (goContains (goToLower h.connection) "upgrade" && h.upgrade == "websocket") ||
  h.secWebSocketVersion == "13" ||
  h.secWebSocketKey != ""

/-! ## Weighted round-robin (`WeightedRoundRobinLoadBalancer.NextBackend`,
loadbalancer/strategies.go)

The mutable fields read by the strategy are on `loadbalancer.Backend`.  The
`Weight` field is a Go `int` (`Int` here); the cumulative walk operates on
non-negative quantities, modelled in `Nat` (`lb.weight` starts at `0` and is
only incremented, so `lb.weight % totalWeight` coincides with `Nat` mod). -/

/-- `loadbalancer.Backend` restricted to the fields the verified strategies
read. -/
structure GoBackend where
  url : String
  weight : Int
  active : Bool
  deriving DecidableEq, Repr

/-- Per-backend weight with `Weight <= 0` treated as 1 (both the
total-weight loop and the selection walk of the source apply this rule). -/
def effWeight (b : GoBackend) : Nat :=
  if b.weight ≤ 0 then 1 else b.weight.toNat

/-- The total-weight loop over the active backends. -/
def totalWeight (bs : List GoBackend) : Nat :=
  (bs.map effWeight).sum

/-- The selection walk: accumulate weights and return the first backend
whose running cumulative weight strictly exceeds `target`;
`currentWeight` starts at 0. -/
def wrrWalk (target : Nat) (currentWeight : Nat) :
    List GoBackend → Option GoBackend
  | [] => none
  | b :: rest =>
    let cw := currentWeight + effWeight b
    if target < cw then some b else wrrWalk target cw rest

/-- `WeightedRoundRobinLoadBalancer.NextBackend` with counter value `w`
(the value of `lb.weight` at the time of the call; the counter starts at 0
and increments once per successful call, so on the n-th call `w = n`):
filter the active backends, error (`none`) when none are active, otherwise
walk the cumulative weights at `w % totalWeight`, falling back to the first
active backend if the walk somehow fails. -/
def wrrNextBackend (bs : List GoBackend) (w : Nat) : Option GoBackend :=
  let act := bs.filter (fun b => b.active)
  if act.isEmpty then none
  else
    let tot := totalWeight act
    if tot == 0 then none
    else
      match wrrWalk (w % tot) 0 act with
      | some b => some b
      | none => act.head?

/-- Claim C6's selection rule, stated over prefix sums: pair each active
backend with its cumulative weight (the total effective weight of the
backends up to and including it) and select the first one whose cumulative
weight strictly exceeds `w mod Σweights`. -/
def wrrSpecC6 (bs : List GoBackend) (w : Nat) : Option GoBackend :=
  let act := bs.filter (fun b => b.active)
  match act with
  | [] => none
  | _ :: _ =>
    ((act.zip ((List.range act.length).map
          (fun i => totalWeight (act.take (i + 1))))).find?
        (fun p => w % totalWeight act < p.2)).map Prod.fst

/-- Running cumulative weights starting from `cur` (proof intermediary
between the source's fused walk and the prefix-sum formulation). -/
def cumWeights (cur : Nat) : List GoBackend → List Nat
  | [] => []
  | b :: rest => (cur + effWeight b) :: cumWeights (cur + effWeight b) rest

/-- The demonstration configuration of claim C6: three active backends with
weights 3, 2 and 1. -/
def wrrDemoBackends : List GoBackend :=
  [⟨"b1", 3, true⟩, ⟨"b2", 2, true⟩, ⟨"b3", 1, true⟩]

/-- Number of times the backend at `url` is selected over the 12 consecutive
calls with counter values `start, start+1, …, start+11` against the
demonstration configuration. -/
def wrrDemoCount (start : Nat) (url : String) : Nat :=
  ((List.range 12).filter (fun k =>
      (wrrNextBackend wrrDemoBackends (start + k)).map GoBackend.url ==
        some url)).length

/-! ## Connection counters (`BaseLoadBalancer.IncrementConnection` /
`DecrementConnection`, loadbalancer/loadbalancer.go)

`Connections` is a Go `int`, modelled as `Int`; both loops mutate the first
backend whose `URL` matches and then `break`. -/

/-- A backend together with its mutable `Connections` counter. -/
structure ConnBackend where
  url : String
  connections : Int
  deriving DecidableEq, Repr

/-- `IncrementConnection(url)`: `Connections++` on the first matching
backend. -/
def incrementConnection : List ConnBackend → String → List ConnBackend
  | [], _ => []
  | b :: rest, url =>
    if b.url == url then { b with connections := b.connections + 1 } :: rest
    else b :: incrementConnection rest url

/-- `DecrementConnection(url)`: `Connections--` on the first matching
backend, guarded by `Connections > 0`. -/
def decrementConnection : List ConnBackend → String → List ConnBackend
  | [], _ => []
  | b :: rest, url =>
    if b.url == url then
      (if b.connections > 0 then { b with connections := b.connections - 1 }
       else b) :: rest
    else b :: decrementConnection rest url

/-- One `IncrementConnection` or `DecrementConnection` call. -/
inductive ConnOp
  | inc (url : String)
  | dec (url : String)
  deriving DecidableEq, Repr

/-- A sequence of increment/decrement calls applied in order. -/
def applyConnOps (bs : List ConnBackend) : List ConnOp → List ConnBackend
  | [] => bs
  | ConnOp.inc url :: rest => applyConnOps (incrementConnection bs url) rest
  | ConnOp.dec url :: rest => applyConnOps (decrementConnection bs url) rest

/-! ## Health probing (`HealthChecker.checkBackend`,
loadbalancer/loadbalancer.go)

A probe is an HTTP round trip; its outcome is modelled as a value: request
construction or transport failure, or a response status code.  The probe
config is the backend's own `HealthCheck` when enabled, else the balancer's
global one; with neither enabled the backend is marked active without
probing.  `checkBackend` writes `Active` as a pure function of the outcome
(the previous value is never read). -/

/-- Outcome of one health probe. -/
inductive ProbeResult
  | err
  | status (code : Int)
  deriving DecidableEq, Repr

/-- `checkBackend` as the new value of `backend.Active`: `beEnabled` /
`gEnabled` are `backend.HealthCheck.Enabled` and the balancer's global
`HealthCheck.Enabled`. -/
def checkBackendActive (beEnabled gEnabled : Bool) (res : ProbeResult) : Bool :=
  if !beEnabled && !gEnabled then true
  else
    match res with
    | ProbeResult.err => false
    | ProbeResult.status code => decide (200 ≤ code ∧ code < 300)

/-- `Active` after a sequence of probes with the given outcomes, starting
from `prev`. -/
def runProbes (beEnabled gEnabled : Bool) (prev : Bool)
    (results : List ProbeResult) : Bool :=
  results.foldl (fun _ res => checkBackendActive beEnabled gEnabled res) prev

/-! ## Rate-limit middleware (middleware/rate_limit_middleware.go and
middleware/plugins/rate_limit/plugin.go)

Both variants resolve the client key with the same `getClientIP` and keep a
per-key fixed one-minute window.  Wall-clock instants are modelled as `Nat`
(seconds); `time.Minute` is 60. -/

/-- `getClientIP` (both rate-limit variants): the `X-Forwarded-For` header
value when non-empty, else `X-Real-IP`, else `RemoteAddr`.  The header
values are the `Header.Get` results (`""` when absent). -/
def rlGetClientIP (xff xRealIP remoteAddr : String) : String :=
  if xff != "" then xff
  else if xRealIP != "" then xRealIP
  else remoteAddr

/-- Modelled from the spec (claim C9's reading): the *first comma-separated
segment* of `X-Forwarded-For` when present. -/
def rlClientIPClaimC9 (xff xRealIP remoteAddr : String) : String :=
  if xff != "" then ⟨xff.data.takeWhile (· ≠ ',')⟩
  else if xRealIP != "" then xRealIP
  else remoteAddr

/-- Per-client limiter state of `middleware.RateLimitMiddleware`. -/
structure RlState where
  lastRequest : Nat
  requests : Int
  burst : Int
  deriving DecidableEq, Repr

/-- `RateLimitMiddleware.Handle` (middleware variant), given the client's
limiter state and the current instant: window reset after more than a
minute, then either consume the per-minute allowance, dip into the burst
allowance, or reject.  Returns the new state, whether the chain continues,
and the status code written (0 when none). -/
def rlHandle (requestsPerMinute burstSize : Int) (st : RlState) (now : Nat) :
    RlState × Bool × Int :=
  let st₁ := if now - st.lastRequest > 60 then
      { lastRequest := now, requests := 0, burst := burstSize }
    else st
  if st₁.requests ≥ requestsPerMinute then
    if st₁.burst ≤ 0 then (st₁, false, 429)
    else ({ st₁ with burst := st₁.burst - 1, lastRequest := now }, true, 0)
  else ({ st₁ with requests := st₁.requests + 1, lastRequest := now }, true, 0)

/-- Per-client limiter state of the rate-limit plugin variant. -/
structure RlPluginState where
  count : Int
  lastReset : Nat
  deriving DecidableEq, Repr

/-- `RateLimitMiddleware.Handle` (plugin variant): reset the counter after
more than a minute, reject when `count >= requestsPerMinute + burstSize`,
else count the request. -/
def rlPluginHandle (requestsPerMinute burstSize : Int) (st : RlPluginState)
    (now : Nat) : RlPluginState × Bool × Int :=
  let st₁ := if now - st.lastReset > 60 then { count := 0, lastReset := now }
    else st
  if st₁.count ≥ requestsPerMinute + burstSize then (st₁, false, 429)
  else ({ st₁ with count := st₁.count + 1 }, true, 0)

/-! ## Replace rules (`middleware.ApplyReplaceRules`, middleware/replace.go)

`regexp.MustCompile(pattern).ReplaceAllString(result, replacement)` is kept
abstract as a function parameter `replAll pattern replacement input`; the
source calls exactly this in both branches of the `Global` test. -/

/-- `middleware.ReplaceRule`. -/
structure GoReplaceRule where
  pattern : String
  replacement : String
  globalFlag : Bool
  deriving DecidableEq, Repr

/-- `ApplyReplaceRules`: fold the rules over the content; the `Global = true`
and `Global = false` branches issue the identical replacement call. -/
def applyReplaceRules (replAll : String → String → String → String)
    (content : String) (rules : List GoReplaceRule) : String :=
  rules.foldl (fun result rule =>
    if rule.globalFlag then replAll rule.pattern rule.replacement result
    else replAll rule.pattern rule.replacement result) content

/-! # Theorems -/

/-- Helper: inside a `*.domain` rule, the disjunction `host == domain ||
HasSuffix(host, "."+domain)` already implies the enclosing
`HasSuffix(host, domain)` test, so that outer test is redundant. -/
theorem wildcard_inner_imp_outer (host domain : String)
    (h : (host == domain || goHasSuf host ("." ++ domain)) = true) :
    goHasSuf host domain = true := by
  simp only [Bool.or_eq_true, beq_iff_eq, goHasSuf, decide_eq_true_eq] at h ⊢
  rcases h with h | h
  · subst h; exact List.suffix_refl _
  · have hd : ("." ++ domain).data = '.' :: domain.data := by
      simp [String.data_append]
    rw [hd] at h
    exact (List.suffix_cons '.' domain.data).trans h

/-- Helper: the wildcard scan of `HostMatcher.Match` returns the target of
the first rule satisfying the spec-shaped wildcard test. -/
theorem hostWildcardScan_eq_find (host : String) :
    ∀ rules : List (String × String),
      hostWildcardScan host rules =
        (rules.find? (fun pt => wildcardMatches host pt.1)).map Prod.snd
  | [] => rfl
  | (pat, tgt) :: rest => by
    by_cases hp : goHasPre pat "*." = true
    · by_cases hi :
          (host == goDrop pat 2 || goHasSuf host ("." ++ goDrop pat 2)) = true
      · have ho := wildcard_inner_imp_outer host (goDrop pat 2) hi
        simp [hostWildcardScan, wildcardMatches, hp, hi, ho, List.find?]
      · rw [Bool.not_eq_true] at hi
        simp [hostWildcardScan, wildcardMatches, hp, hi, List.find?,
          hostWildcardScan_eq_find host rest]
    · rw [Bool.not_eq_true] at hp
      simp [hostWildcardScan, wildcardMatches, hp, List.find?,
        hostWildcardScan_eq_find host rest]

/-- C1, counterexample: `HostMatcher.Match` has no regex tier.  With the
single rule `^a$ → svc` (an anchored regex whose language is exactly
`{"a"}`), the claimed resolution returns `(svc, true)` on host `a`, but
`HostMatcher.Match` returns `("", false)`. -/
theorem C1_counterexample :
    hostMatcherMatch [("^a$", "svc")] "a" = ("", false) ∧
    hostMatchClaimC1 anchoredLiteralRegexMatch [("^a$", "svc")] "a" =
      ("svc", true) ∧
    hostMatcherMatch [("^a$", "svc")] "a" ≠
      hostMatchClaimC1 anchoredLiteralRegexMatch [("^a$", "svc")] "a" := by
  decide

/-- C1 (amended): `HostMatcher.Match` resolves by exact equality against the
host exactly as given (the caller strips the port before calling), otherwise
by the first `*.domain` rule with `host = domain` or `host` ending in
`.domain`; there is no regex tier, and the call returns the matched target
with `true`, or `("", false)` when no pattern matches. -/
theorem C1_host_match_amended (rules : List (String × String)) (host : String) :
    hostMatcherMatch rules host = hostMatchAmendedC1 rules host := by
  unfold hostMatcherMatch hostMatchAmendedC1
  rw [hostWildcardScan_eq_find]
  cases rules.lookup host
  · cases rules.find? (fun pt => wildcardMatches host pt.1) <;> simp
  · simp

/-- C2, counterexample: the assembled chain is *not* duplicate-free across
scopes.  With middleware `m` declared on both the matched route rule and the
matched host rule (and creatable in service form), the chain contains `m`
twice: the host-level loop never checks what the route-level loop added. -/
theorem C2_counterexample :
    createDynamicChainNames (fun _ => true) (fun _ => false) [] []
        (some ["m"]) (some ["m"]) = ["m", "m"] ∧
    ¬ (createDynamicChainNames (fun _ => true) (fun _ => false) [] []
        (some ["m"]) (some ["m"])).Nodup := by
  decide

/-- C2 (amended): deduplication happens only when the two global scopes are
added — a globally-enabled middleware spec or an `IsGlobal` middleware
service is skipped when its name appears among the matched route rule's or
host rule's declared middleware names; route-level and host-level names are
appended without any cross-scope check, so a name declared at both of those
scopes enters the chain twice. -/
theorem C2_global_dedup_amended (svcCreate cfgCreate : String → Bool)
    (cfgMws registry : List (String × Bool))
    (routeMws hostMws : Option (List String)) (n : String)
    (hn : n ∈ globalCfgNames cfgCreate cfgMws routeMws hostMws ++
        globalRegistryNames svcCreate registry routeMws hostMws) :
    declaresName routeMws n = false ∧ declaresName hostMws n = false := by
  rw [List.mem_append] at hn
  rcases hn with hn | hn <;>
  · simp only [globalCfgNames, globalRegistryNames, List.mem_map,
      List.mem_filter, Bool.and_eq_true, Bool.not_eq_true'] at hn
    obtain ⟨p, ⟨_, hcond⟩, hp⟩ := hn
    subst hp
    exact ⟨hcond.1.1.2, hcond.1.2⟩

/-- C2, witness for `C2_global_dedup_amended` at a concrete configuration:
the globally-enabled spec `g` reaches the chain only because it is declared
on neither the route rule nor the host rule. -/
theorem C2_witness :
    declaresName (some ["m"]) "g" = false ∧ declaresName none "g" = false :=
  C2_global_dedup_amended (fun _ => true) (fun _ => true) [("g", true)] []
    (some ["m"]) none "g" (by decide)

/-- C3, counterexample: route-rule matching performs exact path equality
only against the root pattern `"/"`.  The rule `/api → api` with request
path `/api` should match by exact equality per the claim, but the source
falls through to the host rule's own target `web`. -/
theorem C3_counterexample :
    determineTargetInHost (fun _ _ => false)
        [("api", ⟨"http://a", ""⟩), ("web", ⟨"http://w", ""⟩)] "web"
        [⟨"/api", "api"⟩] "/api" = some (⟨"http://w", ""⟩, none) ∧
    determineTargetClaimC3 (fun _ _ => false)
        [("api", ⟨"http://a", ""⟩), ("web", ⟨"http://w", ""⟩)] "web"
        [⟨"/api", "api"⟩] "/api" =
      some (⟨"http://a", ""⟩, some ⟨"/api", "api"⟩) ∧
    determineTargetInHost (fun _ _ => false)
        [("api", ⟨"http://a", ""⟩), ("web", ⟨"http://w", ""⟩)] "web"
        [⟨"/api", "api"⟩] "/api" ≠
      determineTargetClaimC3 (fun _ _ => false)
        [("api", ⟨"http://a", ""⟩), ("web", ⟨"http://w", ""⟩)] "web"
        [⟨"/api", "api"⟩] "/api" := by
  decide

/-- Helper: inside a `prefix/*` route rule, the disjunction `path == prefix
|| HasPrefix(path, prefix+"/")` already implies the enclosing
`HasPrefix(path, prefix)` test, so that outer test is redundant. -/
theorem route_pre_inner_imp_outer (path pre : String)
    (h : (path == pre || goHasPre path (pre ++ "/")) = true) :
    goHasPre path pre = true := by
  simp only [Bool.or_eq_true, beq_iff_eq, goHasPre, decide_eq_true_eq] at h ⊢
  rcases h with h | h
  · subst h; exact List.prefix_refl _
  · have hd : (pre ++ "/").data = pre.data ++ ['/'] := by
      simp [String.data_append]
    rw [hd] at h
    exact (List.prefix_append pre.data ['/']).trans h

/-- Helper: conjunction form of `route_pre_inner_imp_outer` — the outer
prefix test absorbs into the inner disjunction. -/
theorem route_pre_redundant (path pre : String) :
    (goHasPre path pre && (path == pre || goHasPre path (pre ++ "/"))) =
      (path == pre || goHasPre path (pre ++ "/")) := by
  cases hi : (path == pre || goHasPre path (pre ++ "/"))
  · simp
  · simp [route_pre_inner_imp_outer path pre hi]

/-- Helper: the per-rule test of the route loop agrees with its amended
formulation (the redundant outer prefix test dropped). -/
theorem routeRuleFires_eq_amended (rm : String → String → Bool)
    (path : String) (rr : GoRouteRule) :
    routeRuleFires rm path rr = routeRuleFiresAmendedC3 rm path rr := by
  simp only [routeRuleFires, routeRuleFiresAmendedC3]
  rw [route_pre_redundant]

/-- Helper: the route-rule loop returns the first rule (in declaration
order) that fires and has a configured target, paired with that target's
service. -/
theorem routeRuleLoop_eq_find (rm : String → String → Bool)
    (services : List (String × GoService)) (path : String) :
    ∀ rules : List GoRouteRule,
      routeRuleLoop rm services path rules =
        match rules.find? (fun rr => routeRuleFiresAmendedC3 rm path rr &&
            (services.lookup rr.target).isSome) with
        | some rr => (services.lookup rr.target).map (fun svc => (svc, rr))
        | none => none
  | [] => rfl
  | rr :: rest => by
    rw [routeRuleLoop]
    by_cases hf : routeRuleFiresAmendedC3 rm path rr = true
    · cases hl : services.lookup rr.target with
      | some svc =>
        simp [routeRuleFires_eq_amended, hf, hl, List.find?]
      | none =>
        simp [routeRuleFires_eq_amended, hf, hl, List.find?,
          routeRuleLoop_eq_find rm services path rest]
    · rw [Bool.not_eq_true] at hf
      simp [routeRuleFires_eq_amended, hf, List.find?,
        routeRuleLoop_eq_find rm services path rest]

/-- C3 (amended): route matching inside a matched host rule supports exact
equality only for the root pattern `"/"`, plus `prefix/*` and anchored
regex; a firing rule whose target is not a configured service is skipped;
the first matching rule in declaration order wins; and when no route rule
matches, the request is served by the host rule's own target. -/
theorem C3_route_match_amended (rm : String → String → Bool)
    (services : List (String × GoService)) (hostTarget : String)
    (routeRules : List GoRouteRule) (path : String) :
    determineTargetInHost rm services hostTarget routeRules path =
      determineTargetAmendedC3 rm services hostTarget routeRules path := by
  unfold determineTargetInHost determineTargetAmendedC3
  rw [routeRuleLoop_eq_find]
  cases hfind : routeRules.find? (fun rr => routeRuleFiresAmendedC3 rm path rr &&
      (services.lookup rr.target).isSome) with
  | none => rfl
  | some rr =>
    have hsome := List.find?_some hfind
    rw [Bool.and_eq_true] at hsome
    cases hl : services.lookup rr.target with
    | some svc => simp [hl]
    | none => rw [hl] at hsome; simp at hsome

/-- C4: after the chain runs, a string stored under
`dynamic_target_service` that resolves to a configured service replaces the
statically matched target; an unresolvable name keeps the original. -/
theorem C4_dynamic_target_swap (services : List (String × GoService))
    (orig : GoService) (name : String) :
    (∀ svc, services.lookup name = some svc →
      resolveDynamicTarget services orig (some (GoVal.str name)) = svc) ∧
    (services.lookup name = none →
      resolveDynamicTarget services orig (some (GoVal.str name)) = orig) := by
  constructor
  · intro svc h; simp [resolveDynamicTarget, h]
  · intro h; simp [resolveDynamicTarget, h]

/-- C4, witness for `C4_dynamic_target_swap`: with only `alt` configured,
storing `"alt"` swaps to it and storing `"missing"` keeps the original. -/
theorem C4_witness :
    resolveDynamicTarget [("alt", ⟨"http://alt", ""⟩)] ⟨"http://prim", ""⟩
        (some (GoVal.str "alt")) = ⟨"http://alt", ""⟩ ∧
    resolveDynamicTarget [("alt", ⟨"http://alt", ""⟩)] ⟨"http://prim", ""⟩
        (some (GoVal.str "missing")) = ⟨"http://prim", ""⟩ :=
  ⟨(C4_dynamic_target_swap [("alt", ⟨"http://alt", ""⟩)] ⟨"http://prim", ""⟩
      "alt").1 ⟨"http://alt", ""⟩ (by decide),
   (C4_dynamic_target_swap [("alt", ⟨"http://alt", ""⟩)] ⟨"http://prim", ""⟩
      "missing").2 (by decide)⟩

/-- C5, counterexample: detection is a conjunction, not "any one of".  A
request carrying only `Sec-WebSocket-Version: 13` satisfies the claimed
disjunction but `isWebSocketUpgrade` rejects it. -/
theorem C5_counterexample :
    isWsUpgradeClaimC5 ⟨"", "", "13", ""⟩ = true ∧
    isWebSocketUpgrade ⟨"", "", "13", ""⟩ = false := by
  decide

/-- C5 (amended): a request is classified as a WebSocket upgrade exactly
when all of these hold together: `Connection` contains `upgrade`
(case-insensitive), `Upgrade` equals `websocket` (case-insensitive),
`Sec-WebSocket-Version` is `13`, and `Sec-WebSocket-Key` is non-empty. -/
theorem C5_ws_detection_amended (h : WsHeaders) :
    isWebSocketUpgrade h = true ↔
      (goContains (goToLower h.connection) "upgrade" = true ∧
        goToLower h.upgrade = "websocket" ∧
        h.secWebSocketVersion = "13" ∧
        h.secWebSocketKey ≠ "") := by
  unfold isWebSocketUpgrade
  simp [Bool.and_eq_true, bne_iff_ne, and_assoc]

/-- Helper: every effective weight is positive (a non-positive `Weight` is
replaced by 1). -/
theorem effWeight_pos (b : GoBackend) : 0 < effWeight b := by
  unfold effWeight
  split
  · exact Nat.one_pos
  · omega

/-- Helper: the total effective weight of a non-empty backend list is
positive. -/
theorem totalWeight_pos (bs : List GoBackend) (h : bs ≠ []) :
    0 < totalWeight bs := by
  cases bs with
  | nil => exact absurd rfl h
  | cons b rest =>
    have := effWeight_pos b
    simp only [totalWeight, List.map_cons, List.sum_cons]
    omega

/-- Helper: `cumWeights cur` lists `cur` plus the total effective weight of
each successive prefix. -/
theorem cumWeights_eq (cur : Nat) :
    ∀ l : List GoBackend,
      cumWeights cur l =
        (List.range l.length).map (fun i => cur + totalWeight (l.take (i + 1)))
  | [] => rfl
  | b :: rest => by
    rw [cumWeights, cumWeights_eq (cur + effWeight b) rest]
    rw [List.length_cons, List.range_succ_eq_map, List.map_cons, List.map_map]
    refine congrArg₂ List.cons ?_ (List.map_congr_left ?_)
    · simp [totalWeight]
    · intro i _
      simp only [Function.comp_apply, Nat.succ_eq_add_one, List.take_succ_cons,
        totalWeight, List.map_cons, List.sum_cons]
      omega

/-- Helper: the cumulative walk of the weighted round-robin strategy equals
selection by running cumulative weights started at `cur`. -/
theorem wrrWalk_eq_cum (t : Nat) :
    ∀ (l : List GoBackend) (cur : Nat),
      wrrWalk t cur l =
        ((l.zip (cumWeights cur l)).find? (fun p => t < p.2)).map Prod.fst
  | [], _ => rfl
  | b :: rest, cur => by
    rw [wrrWalk, cumWeights, List.zip_cons_cons]
    by_cases ht : t < cur + effWeight b
    · simp [List.find?, ht]
    · have hpred : decide (t < cur + effWeight b) = false := by simpa using ht
      simp only [List.find?, hpred, if_neg ht]
      exact wrrWalk_eq_cum t rest (cur + effWeight b)

/-- Helper: the walk succeeds whenever the target lies below the final
cumulative weight. -/
theorem wrrWalk_isSome :
    ∀ (l : List GoBackend) (cur t : Nat),
      t < cur + totalWeight l → l ≠ [] → (wrrWalk t cur l).isSome = true
  | [], _, _, _, h => absurd rfl h
  | b :: rest, cur, t, hlt, _ => by
    rw [wrrWalk]
    by_cases ht : t < cur + effWeight b
    · simp [ht]
    · rw [if_neg ht]
      cases rest with
      | nil =>
        exfalso
        simp only [totalWeight, List.map_cons, List.map_nil, List.sum_cons,
          List.sum_nil] at hlt
        omega
      | cons c rest' =>
        apply wrrWalk_isSome (c :: rest') (cur + effWeight b) t _ (by simp)
        simp only [totalWeight, List.map_cons, List.sum_cons] at hlt ⊢
        omega

/-- Helper: the weighted round-robin selection only depends on the counter
modulo the total active weight. -/
theorem wrrNextBackend_mod (bs : List GoBackend) (w : Nat) :
    wrrNextBackend bs
        (w % totalWeight (bs.filter (fun b => b.active))) =
      wrrNextBackend bs w := by
  unfold wrrNextBackend
  by_cases he : (bs.filter (fun b => b.active)).isEmpty = true
  · simp [he]
  · rw [Bool.not_eq_true] at he
    simp only [he, Bool.false_eq_true, if_false]
    rw [Nat.mod_mod_of_dvd _ (dvd_refl _)]

/-- C6: `WeightedRoundRobinLoadBalancer.NextBackend` treats non-positive
weights as 1 and, with counter value `n`, selects the first active backend
whose cumulative effective weight strictly exceeds `n mod Σweights`; with
three active backends of weights 3, 2, 1 the selections at any 12
consecutive counter values distribute as 6, 4, 2. -/
theorem C6_weighted_round_robin :
    (∀ (bs : List GoBackend) (w : Nat), wrrNextBackend bs w = wrrSpecC6 bs w) ∧
    (∀ start : Nat,
      wrrDemoCount start "b1" = 6 ∧ wrrDemoCount start "b2" = 4 ∧
        wrrDemoCount start "b3" = 2) := by
  constructor
  · intro bs w
    unfold wrrNextBackend wrrSpecC6
    cases hact : bs.filter (fun b => b.active) with
    | nil => simp
    | cons b rest =>
      have htot : 0 < totalWeight (b :: rest) :=
        totalWeight_pos _ (by simp)
      have hmod : w % totalWeight (b :: rest) < totalWeight (b :: rest) :=
        Nat.mod_lt _ htot
      have hsome :=
        wrrWalk_isSome (b :: rest) 0 (w % totalWeight (b :: rest))
          (by omega) (by simp)
      obtain ⟨bb, hbb⟩ := Option.isSome_iff_exists.mp hsome
      have hng : ¬ totalWeight (b :: rest) = 0 := by omega
      simp only [List.isEmpty_cons, Bool.false_eq_true, if_false,
        beq_iff_eq, hng, if_false, hbb]
      rw [wrrWalk_eq_cum] at hbb
      have hc : cumWeights 0 (b :: rest) =
          (List.range (b :: rest).length).map
            (fun i => totalWeight ((b :: rest).take (i + 1))) := by
        rw [cumWeights_eq]; simp
      rw [hc] at hbb
      rw [hbb]
  · intro start
    have hshift : ∀ k, wrrNextBackend wrrDemoBackends (start + k) =
        wrrNextBackend wrrDemoBackends (start % 6 + k) := by
      intro k
      have h6 : totalWeight (wrrDemoBackends.filter (fun b => b.active)) = 6 := by
        decide
      rw [← wrrNextBackend_mod wrrDemoBackends (start + k),
        ← wrrNextBackend_mod wrrDemoBackends (start % 6 + k), h6]
      congr 1
      omega
    unfold wrrDemoCount
    simp only [hshift]
    have hr : start % 6 < 6 := Nat.mod_lt _ (by omega)
    set r := start % 6 with hrdef
    interval_cases r <;> decide

/-- Helper: `IncrementConnection` keeps all counters non-negative. -/
theorem incrementConnection_nonneg (url : String) :
    ∀ bs : List ConnBackend, (∀ b ∈ bs, 0 ≤ b.connections) →
      ∀ b ∈ incrementConnection bs url, 0 ≤ b.connections
  | [], _, _, hb => absurd hb (by simp [incrementConnection])
  | c :: rest, h, b, hb => by
    rw [incrementConnection] at hb
    by_cases hc : (c.url == url) = true
    · rw [if_pos hc] at hb
      rcases List.mem_cons.mp hb with hb | hb
      · have := h c (by simp)
        subst hb; simp only; omega
      · exact h b (List.mem_cons_of_mem _ hb)
    · rw [if_neg hc] at hb
      rcases List.mem_cons.mp hb with hb | hb
      · subst hb; exact h b (by simp)
      · exact incrementConnection_nonneg url rest
          (fun x hx => h x (List.mem_cons_of_mem _ hx)) b hb

/-- Helper: `DecrementConnection` keeps all counters non-negative (the
decrement is guarded by `Connections > 0`). -/
theorem decrementConnection_nonneg (url : String) :
    ∀ bs : List ConnBackend, (∀ b ∈ bs, 0 ≤ b.connections) →
      ∀ b ∈ decrementConnection bs url, 0 ≤ b.connections
  | [], _, _, hb => absurd hb (by simp [decrementConnection])
  | c :: rest, h, b, hb => by
    rw [decrementConnection] at hb
    by_cases hc : (c.url == url) = true
    · rw [if_pos hc] at hb
      rcases List.mem_cons.mp hb with hb | hb
      · have := h c (by simp)
        by_cases hpos : c.connections > 0
        · rw [if_pos hpos] at hb; subst hb; simp only; omega
        · rw [if_neg hpos] at hb; subst hb; omega
      · exact h b (List.mem_cons_of_mem _ hb)
    · rw [if_neg hc] at hb
      rcases List.mem_cons.mp hb with hb | hb
      · subst hb; exact h b (by simp)
      · exact decrementConnection_nonneg url rest
          (fun x hx => h x (List.mem_cons_of_mem _ hx)) b hb

/-- Helper: any sequence of increment/decrement calls keeps all counters
non-negative. -/
theorem applyConnOps_nonneg :
    ∀ (ops : List ConnOp) (bs : List ConnBackend),
      (∀ b ∈ bs, 0 ≤ b.connections) →
      ∀ b ∈ applyConnOps bs ops, 0 ≤ b.connections
  | [], _, h => h
  | ConnOp.inc url :: rest, bs, h =>
    applyConnOps_nonneg rest _ (incrementConnection_nonneg url bs h)
  | ConnOp.dec url :: rest, bs, h =>
    applyConnOps_nonneg rest _ (decrementConnection_nonneg url bs h)

/-- Helper: starting from non-negative counters, a decrement right after an
increment of the same URL restores the backend list exactly. -/
theorem dec_inc_cancel (url : String) :
    ∀ bs : List ConnBackend, (∀ b ∈ bs, 0 ≤ b.connections) →
      decrementConnection (incrementConnection bs url) url = bs
  | [], _ => rfl
  | c :: rest, h => by
    rw [incrementConnection]
    by_cases hc : (c.url == url) = true
    · rw [if_pos hc, decrementConnection]
      have h0 : 0 ≤ c.connections := h c (by simp)
      simp only [hc, if_pos, gt_iff_lt]
      rw [if_pos (by omega : (0:Int) < c.connections + 1)]
      simp
    · rw [if_neg hc, decrementConnection, if_neg hc,
        dec_inc_cancel url rest (fun x hx => h x (List.mem_cons_of_mem _ hx))]

/-- Helper: decrementing a URL whose matching backends all sit at zero is a
no-op. -/
theorem dec_zero_id (url : String) :
    ∀ bs : List ConnBackend, (∀ b ∈ bs, b.url = url → b.connections = 0) →
      decrementConnection bs url = bs
  | [], _ => rfl
  | c :: rest, h => by
    rw [decrementConnection]
    by_cases hc : (c.url == url) = true
    · have h0 : c.connections = 0 := h c (by simp) (by simpa using hc)
      rw [if_pos hc, if_neg (by omega)]
    · rw [if_neg hc,
        dec_zero_id url rest (fun x hx => h x (List.mem_cons_of_mem _ hx))]

/-- C7: with all counters initially non-negative, any sequence of
`IncrementConnection`/`DecrementConnection` calls keeps every backend's
`Connections` non-negative; a decrement on a backend sitting at zero leaves
the list unchanged; and an increment immediately followed by a decrement of
the same URL has net delta zero. -/
theorem C7_connection_counter (bs : List ConnBackend) (ops : List ConnOp)
    (h : ∀ b ∈ bs, 0 ≤ b.connections) :
    (∀ b ∈ applyConnOps bs ops, 0 ≤ b.connections) ∧
    (∀ url, decrementConnection (incrementConnection bs url) url = bs) ∧
    (∀ url, (∀ b ∈ bs, b.url = url → b.connections = 0) →
      decrementConnection bs url = bs) :=
  ⟨applyConnOps_nonneg ops bs h,
   fun url => dec_inc_cancel url bs h,
   fun url h0 => dec_zero_id url bs h0⟩

/-- C7, witness for `C7_connection_counter`: one backend at zero, one
decrement then one increment. -/
theorem C7_witness :
    decrementConnection (incrementConnection [⟨"u", 0⟩] "u") "u" = [⟨"u", 0⟩] :=
  (C7_connection_counter [⟨"u", 0⟩] [] (by decide)).2.1 "u"

/-- Helper: the outcome of a run of identical probes is the outcome of the
last one. -/
theorem runProbes_replicate (beE gE : Bool) (res : ProbeResult) :
    ∀ (n : Nat) (prev : Bool), 1 ≤ n →
      runProbes beE gE prev (List.replicate n res) =
        checkBackendActive beE gE res
  | 0, _, h => absurd h (by omega)
  | 1, _, _ => rfl
  | n + 2, prev, _ => by
    have ih := runProbes_replicate beE gE res (n + 1)
      (checkBackendActive beE gE res) (by omega)
    rw [List.replicate_succ, runProbes, List.foldl_cons]
    exact ih

/-- C8: with health checking enabled (on the backend or globally), a probe
sets `Active` to true exactly when the response status lies in `[200, 300)`,
any probe error sets it to false, and a run of `n ≥ 1` identical probe
outcomes leaves `Active` at the value determined by that outcome, whatever
it was before. -/
theorem C8_health_probe (beE gE : Bool) (henabled : beE = true ∨ gE = true) :
    (∀ code : Int,
      checkBackendActive beE gE (ProbeResult.status code) = true ↔
        (200 ≤ code ∧ code < 300)) ∧
    checkBackendActive beE gE ProbeResult.err = false ∧
    (∀ (n : Nat) (prev : Bool) (res : ProbeResult), 1 ≤ n →
      runProbes beE gE prev (List.replicate n res) =
        checkBackendActive beE gE res) := by
  have hen : (!beE && !gE) = false := by
    rcases henabled with h | h <;> subst h <;> simp
  refine ⟨fun code => ?_, ?_, fun n prev res hn => runProbes_replicate beE gE res n prev hn⟩
  · simp [checkBackendActive, hen]
  · simp [checkBackendActive, hen]

/-- C8, witness for `C8_health_probe`: three identical 204 probes on a
backend with its own health check enabled. -/
theorem C8_witness :
    runProbes true false false (List.replicate 3 (ProbeResult.status 204)) =
      checkBackendActive true false (ProbeResult.status 204) :=
  (C8_health_probe true false (Or.inl rfl)).2.2 3 false
    (ProbeResult.status 204) (by omega)

/-- C9, counterexample: `getClientIP` of the rate-limit middleware returns
the *entire* `X-Forwarded-For` value, not its first comma-separated
segment. -/
theorem C9_counterexample :
    rlGetClientIP "1.2.3.4, 5.6.7.8" "" "9.9.9.9:1234" = "1.2.3.4, 5.6.7.8" ∧
    rlClientIPClaimC9 "1.2.3.4, 5.6.7.8" "" "9.9.9.9:1234" = "1.2.3.4" ∧
    rlGetClientIP "1.2.3.4, 5.6.7.8" "" "9.9.9.9:1234" ≠
      rlClientIPClaimC9 "1.2.3.4, 5.6.7.8" "" "9.9.9.9:1234" := by
  decide

/-- C9 (amended): the client key is the entire `X-Forwarded-For` header when
non-empty, else `X-Real-IP` when non-empty, else `RemoteAddr`; the
middleware-variant window rejects with 429 exactly when (after the
one-minute reset) the per-minute count is exhausted and no burst remains,
and the plugin-variant window rejects with 429 exactly when (after the
one-minute reset) the count has reached `requestsPerMinute + burstSize`. -/
theorem C9_rate_limit_amended (xff xRealIP remoteAddr : String)
    (rpm burst : Int) (st : RlState) (pst : RlPluginState) (now : Nat) :
    (xff ≠ "" → rlGetClientIP xff xRealIP remoteAddr = xff) ∧
    (xff = "" → xRealIP ≠ "" → rlGetClientIP xff xRealIP remoteAddr = xRealIP) ∧
    (xff = "" → xRealIP = "" → rlGetClientIP xff xRealIP remoteAddr = remoteAddr) ∧
    (((rlHandle rpm burst st now).2.1 = false ↔
        ((if now - st.lastRequest > 60 then
            ({ lastRequest := now, requests := 0, burst := burst } : RlState)
          else st).requests ≥ rpm ∧
         (if now - st.lastRequest > 60 then
            ({ lastRequest := now, requests := 0, burst := burst } : RlState)
          else st).burst ≤ 0)) ∧
      ((rlHandle rpm burst st now).2.1 = false →
        (rlHandle rpm burst st now).2.2 = 429)) ∧
    (((rlPluginHandle rpm burst pst now).2.1 = false ↔
        (if now - pst.lastReset > 60 then
            ({ count := 0, lastReset := now } : RlPluginState)
          else pst).count ≥ rpm + burst) ∧
      ((rlPluginHandle rpm burst pst now).2.1 = false →
        (rlPluginHandle rpm burst pst now).2.2 = 429)) := by
  refine ⟨fun h => ?_, fun h h' => ?_, fun h h' => ?_, ⟨?_, ?_⟩, ⟨?_, ?_⟩⟩
  · simp [rlGetClientIP, h]
  · simp [rlGetClientIP, h, h']
  · simp [rlGetClientIP, h, h']
  · unfold rlHandle
    dsimp only
    split_ifs <;> simp_all
  · unfold rlHandle
    dsimp only
    split_ifs <;> simp_all
  · unfold rlPluginHandle
    dsimp only
    split_ifs <;> simp_all
  · unfold rlPluginHandle
    dsimp only
    split_ifs <;> simp_all

/-- C9, witness for `C9_rate_limit_amended`: a multi-segment
`X-Forwarded-For` value is used whole as the client key. -/
theorem C9_witness :
    rlGetClientIP "7.7.7.7, 8.8.8.8" "" "ra" = "7.7.7.7, 8.8.8.8" :=
  (C9_rate_limit_amended "7.7.7.7, 8.8.8.8" "" "ra" 100 20
      ⟨0, 0, 0⟩ ⟨0, 0⟩ 0).1 (by decide)

/-- Helper: both branches of the `Global` test issue the same call, so the
fold only sees each rule's pattern and replacement. -/
theorem applyReplaceRules_eq_fold
    (replAll : String → String → String → String) (content : String)
    (rules : List GoReplaceRule) :
    applyReplaceRules replAll content rules =
      (rules.map (fun r => (r.pattern, r.replacement))).foldl
        (fun acc pr => replAll pr.1 pr.2 acc) content := by
  unfold applyReplaceRules
  rw [List.foldl_map]
  congr 1
  funext acc rule
  split <;> rfl

/-- C10: `ApplyReplaceRules` is invariant under any change of the rules'
`Global` flags — two rule lists agreeing pattern-wise and replacement-wise
produce identical output on every content and for every replacement
primitive. -/
theorem C10_replace_global_irrelevant
    (replAll : String → String → String → String) (content : String)
    (rules rules' : List GoReplaceRule)
    (h : rules.map (fun r => (r.pattern, r.replacement)) =
        rules'.map (fun r => (r.pattern, r.replacement))) :
    applyReplaceRules replAll content rules =
      applyReplaceRules replAll content rules' := by
  rw [applyReplaceRules_eq_fold, applyReplaceRules_eq_fold, h]

/-- C10, witness for `C10_replace_global_irrelevant`: one rule with the
`Global` flag flipped, under a concrete replacement primitive. -/
theorem C10_witness :
    applyReplaceRules (fun _ rep s => s ++ rep) "body"
        [⟨"p", "r", true⟩] =
      applyReplaceRules (fun _ rep s => s ++ rep) "body"
        [⟨"p", "r", false⟩] :=
  C10_replace_global_irrelevant (fun _ rep s => s ++ rep) "body"
    [⟨"p", "r", true⟩] [⟨"p", "r", false⟩] (by decide)

end ToyouProxy
